import Mathlib

/-
Verification of the solbuild build orchestration core (Go sources under
src/builder and src/solbuild/cmd) against its natural-language specification.

The Go code is shallowly embedded: pure string/path computations are Lean
functions, the stateful build pipeline is a function from an oracle of step
outcomes to a (result, event-trace) pair, and the command handlers are
functions from their environment to an explicit result record.  External
collaborators whose code is not part of the sources (libosdev mounting,
the eopkg manager, chroot execution) appear only through their outcomes,
which is exactly how the Go code consumes them.
-/

namespace Solbuild

/-! ## Path convention helpers

`filepathJoin` models Go's `filepath.Join` (Unix separators): the non-empty
elements are joined with `/` and the result is passed through
`filepath.Clean`.  `pathClean` implements Clean's algorithm: split on
separators, drop empty and `.` segments, resolve `..` against the segment
stack (dropping it at an absolute root, keeping it at the front of a
relative path), and rejoin, returning `.` for an emptied relative path and
`/` for an emptied absolute one. -/

/-- True when a segment or name contains no path separator. -/
def noSlash (l : List Char) : Bool :=
  l.all (fun c => c != '/')

/-- Prepends a character to the first segment of a split (used while
splitting a path left to right). -/
def consHead (c : Char) : List (List Char) → List (List Char)
  | [] => [[c]]
  | s :: ss => (c :: s) :: ss

/-- Splits a character list on every `/` (empty segments kept, as in
splitting `a//b` into `a`, ``, `b`). -/
def splitSlash : List Char → List (List Char)
  | [] => [[]]
  | c :: rest =>
    if c = '/' then [] :: splitSlash rest
    else consHead c (splitSlash rest)

/-- One pass of Clean over the segments: `acc` is the processed-segment
stack in reverse order. -/
def cleanLoop (abs : Bool) (acc : List (List Char)) :
    List (List Char) → List (List Char)
  | [] => acc.reverse
  | seg :: rest =>
    if seg = [] ∨ seg = ['.'] then cleanLoop abs acc rest
    else if seg = ['.', '.'] then
      match acc with
      | [] => cleanLoop abs (if abs then [] else [['.', '.']]) rest
      | top :: accRest =>
        if top = ['.', '.'] then cleanLoop abs (['.', '.'] :: acc) rest
        else cleanLoop abs accRest rest
    else cleanLoop abs (seg :: acc) rest

/-- Joins segments back with `/`. -/
def joinSegs : List (List Char) → List Char
  | [] => []
  | [s] => s
  | s :: rest => s ++ '/' :: joinSegs rest

/-- Go's `filepath.Clean` for Unix paths. -/
def pathClean (p : String) : String :=
  if p.data = [] then "."
  else if p.data.head? = some '/' then
    match cleanLoop true [] (splitSlash p.data) with
    | [] => "/"
    | out => String.mk ('/' :: joinSegs out)
  else
    match cleanLoop false [] (splitSlash p.data) with
    | [] => "."
    | out => String.mk (joinSegs out)

/-- Go's `filepath.Join a b`: the non-empty elements joined with `/`, then
Cleaned; all elements empty gives the empty string. -/
def filepathJoin (a b : String) : String :=
  if a = "" then (if b = "" then "" else pathClean b)
  else if b = "" then pathClean a
  else pathClean (a ++ "/" ++ b)

/-! ## Constants from src/builder (util half of build.go) -/

/-- ImagesDir is where we keep the rootfs images for build profiles. -/
def ImagesDir : String := "/var/lib/solbuild/images"

/-- ImageSuffix is the common suffix for all solbuild images. -/
def ImageSuffix : String := ".img"

/-- ImageCompressedSuffix is the common suffix for a fetched evobuild image. -/
def ImageCompressedSuffix : String := ".img.xz"

/-- ImageBaseURI is the storage area for base images. -/
def ImageBaseURI : String := "https://solus-project.com/image_root"

/-- DefaultProfile is the profile solbuild will use when none are specified. -/
def DefaultProfile : String := "main-x86_64"

/-- ImageRootsDir is where updates are performed on base images. -/
def ImageRootsDir : String := "/var/lib/solbuild/roots"

/-- ValidProfiles is the set of known, Solus-published, base profiles. -/
def ValidProfiles : List String := ["main-x86_64", "unstable-x86_64"]

/-- IsValidProfile will check if the specified profile is a valid one
(linear scan of `ValidProfiles`, as in the Go loop). -/
def IsValidProfile (profile : String) : Bool :=
  ValidProfiles.any (fun p => p == profile)

/-- EmitProfileError emits the stock response to requesting an invalid
profile.  Each element of the returned list is one `Fprintf` call made to
stderr, in order. -/
def EmitProfileError (profile : String) : List String :=
  ("Error: \x27" ++ profile ++ "\x27 is not a known profile\n") ::
  "Valid profiles include:\n\n" ::
  (ValidProfiles.map (fun p => " * " ++ p ++ "\n") ++
   ["\nThe default profile is: " ++ DefaultProfile ++ "\n"])

/-- Extracts, from a list of emitted stderr chunks, the profile names that
were printed as `" * <name>\n"` list entries. -/
def profileLines (out : List String) : List String :=
  out.filterMap (fun l =>
    match l.data with
    | ' ' :: '*' :: ' ' :: rest => some (String.mk rest.dropLast)
    | _ => none)

/-! ## BackingImage (src/builder, util half of build.go) -/

/-- A BackingImage is the core of any given profile. -/
structure BackingImage where
  Name : String
  ImagePath : String
  ImagePathXZ : String
  ImageURI : String
  RootDir : String
deriving DecidableEq

/-- NewBackingImage will return a correctly configured backing image for
usage.  All fields are computed from `name` by string convention; no I/O is
performed (mirrors the Go struct literal). -/
def NewBackingImage (name : String) : BackingImage :=
  { Name := name
    ImagePath := filepathJoin ImagesDir (name ++ ImageSuffix)
    ImagePathXZ := filepathJoin ImagesDir (name ++ ImageCompressedSuffix)
    ImageURI := ImageBaseURI ++ "/" ++ name ++ ImageCompressedSuffix
    RootDir := filepathJoin ImageRootsDir name }

/-- A profile name that is a clean single path component: non-empty, free
of separators, and not a dot segment.  Both published profile names are of
this shape; names outside it can alias under `filepath.Join`'s Clean step
(see the claim C8 counterexample). -/
def simpleName (n : String) : Bool :=
  noSlash n.data && n != "" && n != "." && n != ".."

/-! ## Package and Source data model

The two package-descriptor formats (constants `PackageTypeXML` and
`PackageTypeYpkg` in the builder package). -/

inductive PackageType where
  | PackageTypeXML
  | PackageTypeYpkg
deriving DecidableEq

export PackageType (PackageTypeXML PackageTypeYpkg)

/-- One external input artifact required by the build.  Fields as used by
`FetchSources`/`BindSources` in src/builder/build.go. -/
structure Source where
  URI : String
  File : String
  SHA1Sum : String
  SHA256Sum : String
deriving DecidableEq

/-- The normalized build descriptor. -/
structure Package where
  Name : String
  Version : String
  Release : Nat
  Path : String
  «Type» : PackageType
  Sources : List Source
deriving DecidableEq

/-- The per-build overlay; only its mount point is consulted by the code
under verification. -/
structure Overlay where
  MountPoint : String
deriving DecidableEq

/-- BuildUser is the unprivileged user the modern-format build runs as.
Modelled from the spec: the `BuildUser` constant of the builder package is
not under src/; the spec calls it the build user. -/
def BuildUser : String := "build"

/-- BuildUserHome is the build user home directory inside the sandbox.
Modelled from the spec: the `BuildUserHome` constant of the builder package
is not under src/; the spec describes the modern-format directories as
subdirectories of the build user home. -/
def BuildUserHome : String := "/home/build"

/-! ## Directory conventions (src/builder/build.go) -/

/-- GetWorkDirInternal returns the internal chroot path for the work
directory. -/
def GetWorkDirInternal (p : Package) : String :=
  if p.«Type» = PackageTypeXML then
    "/WORK"
  else
    filepathJoin BuildUserHome "work"

/-- GetWorkDir will return the externally visible work directory for the
given build type (`filepath.Join(o.MountPoint, p.GetWorkDirInternal()[1:])`). -/
def GetWorkDir (p : Package) (o : Overlay) : String :=
  filepathJoin o.MountPoint ((GetWorkDirInternal p).drop 1)

/-- GetSourceDirInternal will return the chroot-internal source directory
for the given build type. -/
def GetSourceDirInternal (p : Package) : String :=
  if p.«Type» = PackageTypeXML then
    "/var/cache/eopkg/archives"
  else
    filepathJoin BuildUserHome (filepathJoin "YPKG" "sources")

/-- GetSourceDir will return the externally visible source directory. -/
def GetSourceDir (p : Package) (o : Overlay) : String :=
  filepathJoin o.MountPoint ((GetSourceDirInternal p).drop 1)

/-! ## Source cache state

The on-disk state of a Source cache entry, as consulted by the fetch loop:
the content hash of the cached file (if one exists), its modification time,
and whether a network fetch of this source would succeed. -/

structure SourceState where
  cachedHash : Option String
  mtime : Nat
  fetchOk : Bool
deriving DecidableEq

/-- Modelled from the spec: `Source.IsFetched` is not under src/; per the
spec it returns true iff a local file exists at the canonical path and its
content hash equals the expected hash.  The cache file age is not
consulted. -/
def Source.IsFetched (st : SourceState) (expHash : String) : Bool :=
  match st.cachedHash with
  | some h => h == expHash
  | none => false

/-! ## Hash selection (duplicated blocks in FetchSources and BindSources) -/

/-- The expected-hash selection performed at the top of the `FetchSources`
loop: `if p.«Type» == PackageTypeXML { expHash = source.SHA1Sum } else
{ expHash = source.SHA256Sum }`. -/
def fetchSourcesExpHash (t : PackageType) (s : Source) : String :=
  if t = PackageTypeXML then s.SHA1Sum else s.SHA256Sum

/-- The expected-hash selection performed at the top of the `BindSources`
loop (textually duplicated in the Go source). -/
def bindSourcesExpHash (t : PackageType) (s : Source) : String :=
  if t = PackageTypeXML then s.SHA1Sum else s.SHA256Sum

/-- The digest class a hash value belongs to. -/
inductive HashKind where
  | sha1
  | sha256
deriving DecidableEq

/-- Reads the named digest field out of a Source. -/
def selectHash (k : HashKind) (s : Source) : String :=
  match k with
  | HashKind.sha1 => s.SHA1Sum
  | HashKind.sha256 => s.SHA256Sum

/-- The digest class the spec prescribes for each format: legacy (XML) uses
the weaker SHA-1-class digest, modern (ypkg) the stronger SHA-256-class
digest.  Written from the spec wording, for comparison with the selection
the code performs. -/
def specHashKind : PackageType → HashKind
  | PackageTypeXML => HashKind.sha1
  | PackageTypeYpkg => HashKind.sha256

/-! ## FetchSources (src/builder/build.go lines 31-58) -/

/-- Log lines produced by the fetch loop: the `Downloading source` info
line and the `Failed to fetch source` error line. -/
inductive FetchEvent where
  | downloading (uri : String)
  | fetchFailed (uri : String)
deriving DecidableEq

/-- The body of the `FetchSources` loop over `p.Sources`.  `w` gives the
on-disk cache state of each source.  A source that is already fetched is
skipped (`continue`); otherwise a download is attempted and a failure is
only logged — the loop always proceeds to the next source. -/
def fetchLoop (t : PackageType) (w : Source → SourceState) :
    List Source → List FetchEvent
  | [] => []
  | s :: rest =>
    if Source.IsFetched (w s) (fetchSourcesExpHash t s) then
      fetchLoop t w rest
    else
      FetchEvent.downloading s.URI ::
        (if (w s).fetchOk then
          fetchLoop t w rest
        else
          FetchEvent.fetchFailed s.URI :: fetchLoop t w rest)

/-- FetchSources will attempt to fetch the sources from the network if
necessary.  The Go function runs the loop and then `return nil`. -/
def FetchSources (p : Package) (w : Source → SourceState) :
    Option String × List FetchEvent :=
  (none, fetchLoop p.«Type» w p.Sources)

/-- The events the fetch loop produces for one source, in isolation. -/
def fetchOne (t : PackageType) (w : Source → SourceState) (s : Source) :
    List FetchEvent :=
  if Source.IsFetched (w s) (fetchSourcesExpHash t s) then
    []
  else
    FetchEvent.downloading s.URI ::
      (if (w s).fetchOk then [] else [FetchEvent.fetchFailed s.URI])

/-! ## BindSources (src/builder/build.go lines 62-112) -/

/-- Modelled from the spec: `Source.GetPath` is not under src/; per the
spec a source is cached at a content-addressed local cache path. -/
def Source.GetPath (s : Source) (expHash : String) : String :=
  filepathJoin (filepathJoin "/var/lib/solbuild/sources" expHash) s.File

/-- The outcomes of the three fallible filesystem operations the
`BindSources` loop performs for one source. -/
structure BindState where
  mkdirOk : Bool
  touchOk : Bool
  bindOk : Bool
deriving DecidableEq

/-- Observable actions of the `BindSources` loop. -/
inductive BindEvent where
  | mkdirFail (dir : String)
  | touchFail (tgt : String)
  | bindMount (src tgt : String)
  | bindFail (tgt : String)
deriving DecidableEq

/-- The body of the `BindSources` loop over `p.Sources`.  `dirExists`
tracks whether the (per-package, source-independent) source directory
exists — once `MkdirAll` succeeds it exists for the remaining iterations.
Mirrors the Go control flow exactly; in particular a `TouchFile` failure is
logged and makes the whole function `return nil`. -/
def bindLoop (p : Package) (o : Overlay) (w : Source → BindState) :
    Bool → List Source → Option String × List BindEvent
  | _, [] => (none, [])
  | dirExists, s :: rest =>
    let expHash := bindSourcesExpHash p.«Type» s
    let localFile := Source.GetPath s expHash
    let sourceDir := GetSourceDir p o
    if dirExists = false ∧ (w s).mkdirOk = false then
      (some "MkdirAll failed", [BindEvent.mkdirFail sourceDir])
    else
      let tgtPath := filepathJoin sourceDir s.File
      if (w s).touchOk = false then
        (none, [BindEvent.touchFail tgtPath])
      else if (w s).bindOk = false then
        (some "BindMount failed",
         [BindEvent.bindFail tgtPath])
      else
        let r := bindLoop p o w true rest
        (r.1, BindEvent.bindMount localFile tgtPath :: r.2)

/-- BindSources will make the sources available to the chroot by bind
mounting them into place.  `dirExists0` is whether the source directory
already exists when the function starts. -/
def BindSources (p : Package) (o : Overlay) (w : Source → BindState)
    (dirExists0 : Bool) : Option String × List BindEvent :=
  bindLoop p o w dirExists0 p.Sources

/-! ## The build orchestrator (Package.Build, src/builder/build.go 176-327)

`Build` is embedded as a function from an oracle of step outcomes to the
pair (returned error, trace of observable events).  Steps whose
implementation lives outside src/ (root activation, the eopkg manager,
chroot execution, networking calls) are oracle booleans — the Go code only
consumes their error result.  `FetchSources` and `BindSources` are the
embeddings above.  The Go `defer reaper()` is modelled by `deferRet`:
every return that happens after the `defer` statement appends a single
`runReaper` event. -/

inductive Event where
  | newOverlay
  | cleanExisting
  | newEopkgManager
  | registerReaper
  | handleInterrupt
  | activateRoot
  | copyAssets
  | fetchSources
  | pmanInit
  | startDBUS
  | upgrade
  | installComponent (c : String)
  | installDeps
  | stopDBUS
  | chownHome
  | dropNetworking
  | configureNetworking
  | bindSources
  | runBuild
  | warnLegacy
  | runReaper
deriving DecidableEq

/-- Outcomes of the build steps the orchestrator drives through external
collaborators.  `true` means the step returned no error. -/
structure BuildEnv where
  cleanExisting : Bool
  activateRoot : Bool
  copyAssets : Bool
  pmanInit : Bool
  startDBUS : Bool
  upgrade : Bool
  installComponent : Bool
  installDeps : Bool
  stopDBUS : Bool
  chownHome : Bool
  dropNetworking : Bool
  configureNetworking : Bool
  runBuild : Bool
deriving DecidableEq

/-- A return taken after `defer reaper()` was executed: the deferred
reaper runs exactly once, then the function returns. -/
def deferRet (tr : List Event) (e : Option String) :
    Option String × List Event :=
  (e, tr ++ [Event.runReaper])

/-- Modelled from the spec: `NewOverlay` is not under src/; the overlay
mount point is derived by convention from the profile name. -/
def NewOverlay (img : BackingImage) (_p : Package) : Overlay :=
  { MountPoint := filepathJoin (filepathJoin "/var/cache/solbuild" img.Name) "union" }

/-- Modelled from the spec: `HandleInterrupt` is not under src/; it
installs a signal hook that invokes the same reaper before the process
terminates.  Applied to the trace accumulated at the moment the signal
arrives, it runs the reaper exactly once and the process ends. -/
def interruptHook (tr : List Event) : List Event :=
  tr ++ [Event.runReaper]

/-- The body of `Package.Build`, with the error result of the
`p.BindSources(overlay)` call abstracted as the parameter `bres` (the call
is pure in this embedding, so evaluating it up front is equivalent to the
Go program evaluating it at its call site).  Direct transcription of the
Go function body: every `if err := ...; err != nil { return err }` is one
conditional, the trace records each statement in program order, and both
the YPkg and the XML arm fall through to the final
`return errors.New("Not yet implemented")`. -/
def BuildWith (p : Package) (_img : BackingImage) (w : Source → SourceState)
    (bres : Option String) (env : BuildEnv) :
    Option String × List Event :=
  let t0 := [Event.newOverlay, Event.cleanExisting]
  if env.cleanExisting = false then
    (some "CleanExisting", t0)
  else
    let t1 := t0 ++ [Event.newEopkgManager, Event.registerReaper,
                     Event.handleInterrupt]
    let t2 := t1 ++ [Event.activateRoot]
    if env.activateRoot = false then deferRet t2 (some "ActivateRoot")
    else
      let t3 := t2 ++ [Event.copyAssets]
      if env.copyAssets = false then deferRet t3 (some "CopyAssets")
      else
        let t4 := t3 ++ [Event.fetchSources]
        match (FetchSources p w).1 with
        | some e => deferRet t4 (some e)
        | none =>
          let t5 := t4 ++ [Event.pmanInit]
          if env.pmanInit = false then deferRet t5 (some "pman.Init")
          else
            let t6 := t5 ++ [Event.startDBUS]
            if env.startDBUS = false then deferRet t6 (some "pman.StartDBUS")
            else
              let t7 := t6 ++ [Event.upgrade]
              if env.upgrade = false then deferRet t7 (some "pman.Upgrade")
              else
                let t8 := t7 ++ [Event.installComponent "system.devel"]
                if env.installComponent = false then
                  deferRet t8 (some "pman.InstallComponent")
                else
                  match p.«Type» with
                  | PackageTypeYpkg =>
                    let t9 := t8 ++ [Event.installDeps]
                    if env.installDeps = false then
                      deferRet t9 (some "ypkg-install-deps")
                    else
                      let t10 := t9 ++ [Event.stopDBUS]
                      if env.stopDBUS = false then
                        deferRet t10 (some "pman.StopDBUS")
                      else
                        let t11 := t10 ++ [Event.chownHome]
                        if env.chownHome = false then
                          deferRet t11 (some "chown")
                        else
                          let t12 := t11 ++ [Event.dropNetworking]
                          if env.dropNetworking = false then
                            deferRet t12 (some "DropNetworking")
                          else
                            let t13 := t12 ++ [Event.configureNetworking]
                            if env.configureNetworking = false then
                              deferRet t13 (some "ConfigureNetworking")
                            else
                              let t14 := t13 ++ [Event.bindSources]
                              match bres with
                              | some e => deferRet t14 (some e)
                              | none =>
                                let t15 := t14 ++ [Event.runBuild]
                                if env.runBuild = false then
                                  deferRet t15 (some "ypkg-build")
                                else
                                  deferRet t15 (some "Not yet implemented")
                  | PackageTypeXML =>
                    let t9 := t8 ++ [Event.warnLegacy, Event.stopDBUS]
                    if env.stopDBUS = false then
                      deferRet t9 (some "pman.StopDBUS")
                    else
                      deferRet t9 (some "Not yet implemented")

/-- Build will attempt to build the package in the overlayfs system:
`BuildWith` at the error result of `p.BindSources(overlay)`. -/
def Build (p : Package) (img : BackingImage) (w : Source → SourceState)
    (wb : Source → BindState) (dirExists0 : Bool) (env : BuildEnv) :
    Option String × List Event :=
  BuildWith p img w ((BindSources p (NewOverlay img p) wb dirExists0).1) env

/-- The fixed first five events of every build whose `CleanExisting`
succeeded: overlay creation, stale-state purge, manager construction,
reaper registration (`defer reaper()`), interrupt-hook installation. -/
def preludeTrace : List Event :=
  [Event.newOverlay, Event.cleanExisting, Event.newEopkgManager,
   Event.registerReaper, Event.handleInterrupt]

/-- The build steps named by the format-dispatch portion of the spec:
dependency installation, ownership fix, network drop, loopback
configuration, source binding, and the build-tool run. -/
def claimedStep : Event → Bool
  | Event.installDeps => true
  | Event.chownHome => true
  | Event.dropNetworking => true
  | Event.configureNetworking => true
  | Event.bindSources => true
  | Event.runBuild => true
  | _ => false

/-- The order the spec states for the format-dependent steps. -/
def claimedOrder : List Event :=
  [Event.installDeps, Event.chownHome, Event.dropNetworking,
   Event.configureNetworking, Event.bindSources, Event.runBuild]

/-- The build steps that mutate the composed sandbox (everything the
orchestrator performs after installing the reaper). -/
def privilegedStep : Event → Bool
  | Event.activateRoot | Event.copyAssets | Event.fetchSources
  | Event.pmanInit | Event.startDBUS | Event.upgrade
  | Event.installComponent _ | Event.installDeps | Event.stopDBUS
  | Event.chownHome | Event.dropNetworking | Event.configureNetworking
  | Event.bindSources | Event.runBuild => true
  | _ => false

/-- All build steps shared by both formats, up to the format dispatch,
returned no error. -/
def commonStepsOk (env : BuildEnv) : Prop :=
  env.cleanExisting = true ∧ env.activateRoot = true ∧
  env.copyAssets = true ∧ env.pmanInit = true ∧ env.startDBUS = true ∧
  env.upgrade = true ∧ env.installComponent = true

/-! ## Command handlers (src/solbuild/cmd/build.go and update.go) -/

/-- Environment of the `build` command handler: positional arguments, the
result of the `FindLikelyArg` heuristic, whether the backing image file
exists, whether the descriptor parses, and the parsed format. -/
structure BuildCmdEnv where
  args : List String
  findLikelyArg : String
  imageInstalled : Bool
  newPackageOk : Bool
  pkgType : PackageType
deriving DecidableEq

/-- Result of one `buildPackage` handler run: the chunks written to
stderr, the error returned to cobra (nil means the process exits zero),
the filesystem mutations attempted, and whether the legacy warning was
logged. -/
structure BuildCmdResult where
  stderr : List String
  retErr : Option String
  mutations : List String
  warnedLegacy : Bool
deriving DecidableEq

/-- buildPackage (src/solbuild/cmd/build.go).  Note the handler performs
no filesystem mutation at all — it stops after parsing and logging. -/
def buildPackageCmd (profile : String) (env : BuildCmdEnv) : BuildCmdResult :=
  let pkgPath := match env.args with
    | [a] => a
    | _ => env.findLikelyArg
  if IsValidProfile profile = false then
    { stderr := EmitProfileError profile, retErr := none, mutations := [],
      warnedLegacy := false }
  else
    let pkgPath := pkgPath.trim
    if pkgPath = "" then
      { stderr := [], retErr := some "Require a filename to build",
        mutations := [], warnedLegacy := false }
    else if env.imageInstalled = false then
      { stderr := ["Cannot find profile \x27" ++ profile ++
          "\x27. Did you forget to run init?\n"],
        retErr := none, mutations := [], warnedLegacy := false }
    else if env.newPackageOk = false then
      { stderr := ["Failed to load package\n"], retErr := none,
        mutations := [], warnedLegacy := false }
    else
      { stderr := [], retErr := none, mutations := [],
        warnedLegacy := env.pkgType != PackageTypeYpkg }

/-- Environment of the `update` command handler. -/
structure UpdateCmdEnv where
  args : List String
  imageInstalled : Bool
  euidRoot : Bool
  updateOk : Bool
deriving DecidableEq

/-- Result of one `updateProfile` handler run: stderr chunks, the
`os.Exit` code if one was taken (none means the handler returned and the
process exits zero), and the mutations attempted (`bk.Update()`). -/
structure UpdateCmdResult where
  stderr : List String
  exitCode : Option Nat
  mutations : List String
deriving DecidableEq

/-- updateProfile (src/solbuild/cmd/update.go). -/
def updateProfileCmd (profile0 : String) (env : UpdateCmdEnv) :
    UpdateCmdResult :=
  let profile := match env.args with
    | [a] => a.trim
    | _ => profile0
  if IsValidProfile profile = false then
    { stderr := EmitProfileError profile, exitCode := none, mutations := [] }
  else if env.imageInstalled = false then
    { stderr := ["Cannot find profile \x27" ++ profile ++
        "\x27. Did you forget to run init?\n"],
      exitCode := some 1, mutations := [] }
  else if env.euidRoot = false then
    { stderr := ["You must be root to run init profiles\n"],
      exitCode := some 1, mutations := [] }
  else if env.updateOk then
    { stderr := [], exitCode := none, mutations := ["Update " ++ profile] }
  else
    { stderr := [], exitCode := some 1, mutations := ["Update " ++ profile] }

/-! ## Concrete sample inputs (used by witnesses and counterexamples) -/

def sampleSource : Source :=
  { URI := "https://example.org/pkg-1.tar.xz", File := "pkg-1.tar.xz",
    SHA1Sum := "aaaa", SHA256Sum := "bbbb" }

def sampleImg : BackingImage := NewBackingImage "main-x86_64"

def sampleYpkg : Package :=
  { Name := "pkg", Version := "1", Release := 1, Path := "./package.yml",
    «Type» := PackageTypeYpkg, Sources := [sampleSource] }

def sampleXMLPkg : Package :=
  { Name := "pkg", Version := "1", Release := 1, Path := "./pspec.xml",
    «Type» := PackageTypeXML, Sources := [sampleSource] }

/-- A cache with nothing fetched and a failing network. -/
def missW : Source → SourceState :=
  fun _ => { cachedHash := none, mtime := 0, fetchOk := false }

/-- A cache holding every sample source with its correct SHA-256 hash. -/
def hitW : Source → SourceState :=
  fun _ => { cachedHash := some "bbbb", mtime := 0, fetchOk := true }

def allBindW : Source → BindState :=
  fun _ => { mkdirOk := true, touchOk := true, bindOk := true }

def touchFailW : Source → BindState :=
  fun _ => { mkdirOk := true, touchOk := false, bindOk := true }

def allOkEnv : BuildEnv :=
  { cleanExisting := true, activateRoot := true, copyAssets := true,
    pmanInit := true, startDBUS := true, upgrade := true,
    installComponent := true, installDeps := true, stopDBUS := true,
    chownHome := true, dropNetworking := true, configureNetworking := true,
    runBuild := true }

def cleanFailEnv : BuildEnv :=
  { allOkEnv with cleanExisting := false }

def sampleBuildCmdEnv : BuildCmdEnv :=
  { args := [], findLikelyArg := "package.yml", imageInstalled := true,
    newPackageOk := true, pkgType := PackageTypeYpkg }

def sampleUpdateCmdEnv : UpdateCmdEnv :=
  { args := [], imageInstalled := true, euidRoot := true, updateOk := true }

/-! ## Helper lemmas -/

theorem str_data_inj {a b : String} (h : a.data = b.data) : a = b := by
  cases a; cases b; exact congrArg String.mk h

theorem str_append_left_cancel {a s t : String} (h : a ++ s = a ++ t) :
    s = t := by
  apply str_data_inj
  have hd : (a ++ s).data = (a ++ t).data := congrArg String.data h
  simp only [String.data_append] at hd
  exact List.append_cancel_left hd

theorem str_append_right_cancel {s t b : String} (h : s ++ b = t ++ b) :
    s = t := by
  apply str_data_inj
  have hd : (s ++ b).data = (t ++ b).data := congrArg String.data h
  simp only [String.data_append] at hd
  exact List.append_cancel_right hd

theorem str_wrap_inj {a b s t : String}
    (h : a ++ s ++ b = a ++ t ++ b) : s = t :=
  str_append_left_cancel (str_append_right_cancel h)

theorem splitSlash_ne_nil (l : List Char) : splitSlash l ≠ [] := by
  induction l with
  | nil => simp [splitSlash]
  | cons c rest ih =>
    by_cases hc : c = '/'
    · simp [splitSlash, hc]
    · simp only [splitSlash, if_neg hc]
      cases hsp : splitSlash rest with
      | nil => exact absurd hsp ih
      | cons s ss => simp [consHead]

theorem splitSlash_noSlash (l : List Char) (h : noSlash l = true) :
    splitSlash l = [l] := by
  induction l with
  | nil => rfl
  | cons c rest ih =>
    simp only [noSlash, List.all_cons, Bool.and_eq_true] at h
    obtain ⟨hc, hrest⟩ := h
    have hc' : ¬ c = '/' := by simpa using hc
    simp [splitSlash, hc', ih hrest, consHead]

/-- Splitting at a separator boundary splits each side independently. -/
theorem splitSlash_append (X Y : List Char) :
    splitSlash (X ++ '/' :: Y) = splitSlash X ++ splitSlash Y := by
  induction X with
  | nil => simp [splitSlash]
  | cons c X' ih =>
    by_cases hc : c = '/'
    · simp [splitSlash, hc, ih]
    · have h1 : splitSlash ((c :: X') ++ '/' :: Y)
          = consHead c (splitSlash (X' ++ '/' :: Y)) := by
        simp [splitSlash, hc]
      have h2 : splitSlash (c :: X') = consHead c (splitSlash X') := by
        simp [splitSlash, hc]
      cases hsp : splitSlash X' with
      | nil => exact absurd hsp (splitSlash_ne_nil X')
      | cons s ss =>
        rw [h1, h2, ih, hsp]
        rfl

/-- `filepath.Join` under the images directory is plain concatenation for
any final component that is non-empty, separator-free, and not a dot
segment (Clean is the identity on the result). -/
theorem filepathJoin_images (t : String) (h1 : t.data ≠ [])
    (hs : noSlash t.data = true) (h3 : t.data ≠ ['.'])
    (h4 : t.data ≠ ['.', '.']) :
    filepathJoin ImagesDir t = ImagesDir ++ "/" ++ t := by
  have hne : t ≠ "" := fun he => h1 (congrArg String.data he)
  have hdata : (ImagesDir ++ "/" ++ t).data
      = "/var/lib/solbuild/images".data ++ '/' :: t.data := by
    simp [ImagesDir, String.data_append]
  have hsplit : splitSlash ((ImagesDir ++ "/" ++ t)).data
      = [[], "var".data, "lib".data, "solbuild".data, "images".data]
        ++ [t.data] := by
    rw [hdata, splitSlash_append, splitSlash_noSlash t.data hs]
    rfl
  have hc1 : ¬ ((ImagesDir ++ "/" ++ t).data = []) := by
    rw [hdata]; simp
  have hc2 : (ImagesDir ++ "/" ++ t).data.head? = some '/' := by
    rw [hdata]; rfl
  unfold filepathJoin
  rw [if_neg (by decide : ¬ (ImagesDir = "")), if_neg hne]
  unfold pathClean
  rw [hsplit, if_neg hc1, if_pos hc2]
  have hcl : cleanLoop true []
      ([[], "var".data, "lib".data, "solbuild".data, "images".data]
        ++ [t.data])
      = ["var".data, "lib".data, "solbuild".data, "images".data,
         t.data] := by
    have hstep : cleanLoop true []
        ([[], "var".data, "lib".data, "solbuild".data, "images".data]
          ++ [t.data])
        = cleanLoop true
            ["images".data, "solbuild".data, "lib".data, "var".data]
            [t.data] := rfl
    rw [hstep]
    simp [cleanLoop, h1, h3, h4]
  rw [hcl]
  apply str_data_inj
  rw [hdata]
  rfl

/-- `filepath.Join` under the roots directory is plain concatenation for
any final component that is non-empty, separator-free, and not a dot
segment. -/
theorem filepathJoin_roots (t : String) (h1 : t.data ≠ [])
    (hs : noSlash t.data = true) (h3 : t.data ≠ ['.'])
    (h4 : t.data ≠ ['.', '.']) :
    filepathJoin ImageRootsDir t = ImageRootsDir ++ "/" ++ t := by
  have hne : t ≠ "" := fun he => h1 (congrArg String.data he)
  have hdata : (ImageRootsDir ++ "/" ++ t).data
      = "/var/lib/solbuild/roots".data ++ '/' :: t.data := by
    simp [ImageRootsDir, String.data_append]
  have hsplit : splitSlash ((ImageRootsDir ++ "/" ++ t)).data
      = [[], "var".data, "lib".data, "solbuild".data, "roots".data]
        ++ [t.data] := by
    rw [hdata, splitSlash_append, splitSlash_noSlash t.data hs]
    rfl
  have hc1 : ¬ ((ImageRootsDir ++ "/" ++ t).data = []) := by
    rw [hdata]; simp
  have hc2 : (ImageRootsDir ++ "/" ++ t).data.head? = some '/' := by
    rw [hdata]; rfl
  unfold filepathJoin
  rw [if_neg (by decide : ¬ (ImageRootsDir = "")), if_neg hne]
  unfold pathClean
  rw [hsplit, if_neg hc1, if_pos hc2]
  have hcl : cleanLoop true []
      ([[], "var".data, "lib".data, "solbuild".data, "roots".data]
        ++ [t.data])
      = ["var".data, "lib".data, "solbuild".data, "roots".data,
         t.data] := by
    have hstep : cleanLoop true []
        ([[], "var".data, "lib".data, "solbuild".data, "roots".data]
          ++ [t.data])
        = cleanLoop true
            ["roots".data, "solbuild".data, "lib".data, "var".data]
            [t.data] := rfl
    rw [hstep]
    simp [cleanLoop, h1, h3, h4]
  rw [hcl]
  apply str_data_inj
  rw [hdata]
  rfl

/-- Unpacks `simpleName` into the character-level facts the path lemmas
consume. -/
theorem simpleName_spec (n : String) (h : simpleName n = true) :
    noSlash n.data = true ∧ n.data ≠ [] ∧ n.data ≠ ['.'] ∧
    n.data ≠ ['.', '.'] := by
  simp only [simpleName, Bool.and_eq_true, bne_iff_ne] at h
  obtain ⟨⟨⟨hns, hne⟩, hd⟩, hdd⟩ := h
  refine ⟨hns, ?_, ?_, ?_⟩
  · exact fun he => hne (str_data_inj he)
  · exact fun he => hd (str_data_inj he)
  · exact fun he => hdd (str_data_inj he)

/-- A separator-free name followed by one of the image suffixes is a
valid clean path component. -/
theorem suffix_component (n suf : String) (hns : noSlash n.data = true)
    (hsuf : noSlash suf.data = true) (hlen : 2 < suf.data.length) :
    (n ++ suf).data ≠ [] ∧ noSlash (n ++ suf).data = true ∧
    (n ++ suf).data ≠ ['.'] ∧ (n ++ suf).data ≠ ['.', '.'] := by
  have key : ∀ L : List Char, (n ++ suf).data = L →
      n.data.length + suf.data.length = L.length := by
    intro L hL
    have hl := congrArg List.length hL
    rwa [String.data_append, List.length_append] at hl
  refine ⟨?_, ?_, ?_, ?_⟩
  · intro h
    have hk := key [] h
    rw [show (([] : List Char)).length = 0 from rfl] at hk
    omega
  · simp only [noSlash] at hns hsuf ⊢
    rw [String.data_append, List.all_append, hns, hsuf]
    rfl
  · intro h
    have hk := key ['.'] h
    rw [show ((['.'] : List Char)).length = 1 from rfl] at hk
    omega
  · intro h
    have hk := key ['.', '.'] h
    rw [show ((['.', '.'] : List Char)).length = 2 from rfl] at hk
    omega

theorem fetchLoop_eq_flatMap (t : PackageType) (w : Source → SourceState) :
    ∀ l : List Source, fetchLoop t w l = l.flatMap (fetchOne t w) := by
  intro l
  induction l with
  | nil => rfl
  | cons s rest ih =>
    simp only [fetchLoop, fetchOne, List.flatMap_cons]
    by_cases hf : Source.IsFetched (w s) (fetchSourcesExpHash t s) = true
    · simp [hf, ih]
    · simp only [Bool.not_eq_true] at hf
      by_cases ho : (w s).fetchOk = true
      · simp [hf, ho, ih]
      · simp only [Bool.not_eq_true] at ho
        simp [hf, ho, ih]

/-- Structural characterization of every run of the build body past the
`CleanExisting` guard: the trace is the fixed prelude, then step events
containing neither a reaper run nor a second registration, then exactly
one reaper run; and the returned error is non-nil. -/
theorem BuildWith_shape (p : Package) (img : BackingImage)
    (w : Source → SourceState) (bres : Option String)
    (env : BuildEnv) (hc : env.cleanExisting = true) :
    ∃ mid e, BuildWith p img w bres env
        = (some e, preludeTrace ++ mid ++ [Event.runReaper])
      ∧ Event.runReaper ∉ mid ∧ Event.registerReaper ∉ mid := by
  obtain ⟨c, ar, ca, pi, sd, ug, ic, idep, stp, ch, dn, cn, rb⟩ := env
  obtain ⟨pn, pv, pr, pp, ty, ps⟩ := p
  cases c
  · exact Bool.noConfusion hc
  cases ar
  · exact ⟨[Event.activateRoot], "ActivateRoot", rfl, by decide, by decide⟩
  cases ca
  · exact ⟨[Event.activateRoot, Event.copyAssets], "CopyAssets", rfl,
      by decide, by decide⟩
  cases pi
  · exact ⟨[Event.activateRoot, Event.copyAssets, Event.fetchSources,
      Event.pmanInit], "pman.Init", rfl, by decide, by decide⟩
  cases sd
  · exact ⟨[Event.activateRoot, Event.copyAssets, Event.fetchSources,
      Event.pmanInit, Event.startDBUS], "pman.StartDBUS", rfl,
      by decide, by decide⟩
  cases ug
  · exact ⟨[Event.activateRoot, Event.copyAssets, Event.fetchSources,
      Event.pmanInit, Event.startDBUS, Event.upgrade], "pman.Upgrade", rfl,
      by decide, by decide⟩
  cases ic
  · exact ⟨[Event.activateRoot, Event.copyAssets, Event.fetchSources,
      Event.pmanInit, Event.startDBUS, Event.upgrade,
      Event.installComponent "system.devel"], "pman.InstallComponent", rfl,
      by decide, by decide⟩
  cases ty
  · -- legacy XML arm
    cases stp
    · exact ⟨[Event.activateRoot, Event.copyAssets, Event.fetchSources,
        Event.pmanInit, Event.startDBUS, Event.upgrade,
        Event.installComponent "system.devel", Event.warnLegacy,
        Event.stopDBUS], "pman.StopDBUS", rfl, by decide, by decide⟩
    · exact ⟨[Event.activateRoot, Event.copyAssets, Event.fetchSources,
        Event.pmanInit, Event.startDBUS, Event.upgrade,
        Event.installComponent "system.devel", Event.warnLegacy,
        Event.stopDBUS], "Not yet implemented", rfl, by decide, by decide⟩
  · -- modern ypkg arm
    cases idep
    · exact ⟨[Event.activateRoot, Event.copyAssets, Event.fetchSources,
        Event.pmanInit, Event.startDBUS, Event.upgrade,
        Event.installComponent "system.devel", Event.installDeps],
        "ypkg-install-deps", rfl, by decide, by decide⟩
    cases stp
    · exact ⟨[Event.activateRoot, Event.copyAssets, Event.fetchSources,
        Event.pmanInit, Event.startDBUS, Event.upgrade,
        Event.installComponent "system.devel", Event.installDeps,
        Event.stopDBUS], "pman.StopDBUS", rfl, by decide, by decide⟩
    cases ch
    · exact ⟨[Event.activateRoot, Event.copyAssets, Event.fetchSources,
        Event.pmanInit, Event.startDBUS, Event.upgrade,
        Event.installComponent "system.devel", Event.installDeps,
        Event.stopDBUS, Event.chownHome], "chown", rfl, by decide, by decide⟩
    cases dn
    · exact ⟨[Event.activateRoot, Event.copyAssets, Event.fetchSources,
        Event.pmanInit, Event.startDBUS, Event.upgrade,
        Event.installComponent "system.devel", Event.installDeps,
        Event.stopDBUS, Event.chownHome, Event.dropNetworking],
        "DropNetworking", rfl, by decide, by decide⟩
    cases cn
    · exact ⟨[Event.activateRoot, Event.copyAssets, Event.fetchSources,
        Event.pmanInit, Event.startDBUS, Event.upgrade,
        Event.installComponent "system.devel", Event.installDeps,
        Event.stopDBUS, Event.chownHome, Event.dropNetworking,
        Event.configureNetworking], "ConfigureNetworking", rfl,
        by decide, by decide⟩
    cases bres with
    | none =>
      cases rb
      · exact ⟨[Event.activateRoot, Event.copyAssets, Event.fetchSources,
          Event.pmanInit, Event.startDBUS, Event.upgrade,
          Event.installComponent "system.devel", Event.installDeps,
          Event.stopDBUS, Event.chownHome, Event.dropNetworking,
          Event.configureNetworking, Event.bindSources, Event.runBuild],
          "ypkg-build", rfl, by decide, by decide⟩
      · exact ⟨[Event.activateRoot, Event.copyAssets, Event.fetchSources,
          Event.pmanInit, Event.startDBUS, Event.upgrade,
          Event.installComponent "system.devel", Event.installDeps,
          Event.stopDBUS, Event.chownHome, Event.dropNetworking,
          Event.configureNetworking, Event.bindSources, Event.runBuild],
          "Not yet implemented", rfl, by decide, by decide⟩
    | some e =>
      exact ⟨[Event.activateRoot, Event.copyAssets, Event.fetchSources,
        Event.pmanInit, Event.startDBUS, Event.upgrade,
        Event.installComponent "system.devel", Event.installDeps,
        Event.stopDBUS, Event.chownHome, Event.dropNetworking,
        Event.configureNetworking, Event.bindSources], e, rfl,
        by decide, by decide⟩

/-- The fetch loop never reads the cache-entry modification time: any two
world states agreeing on content hash and fetch outcome produce the same
events. -/
theorem fetchLoop_congr (t : PackageType) {w w' : Source → SourceState}
    (hw : ∀ x, (w' x).cachedHash = (w x).cachedHash ∧
      (w' x).fetchOk = (w x).fetchOk) :
    ∀ l, fetchLoop t w' l = fetchLoop t w l := by
  intro l
  induction l with
  | nil => rfl
  | cons s rest ih =>
    have h1 : Source.IsFetched (w' s) (fetchSourcesExpHash t s)
        = Source.IsFetched (w s) (fetchSourcesExpHash t s) := by
      simp [Source.IsFetched, (hw s).1]
    simp only [fetchLoop, h1, (hw s).2, ih]

theorem isValidProfile_iff (p : String) :
    IsValidProfile p = true ↔ p ∈ ValidProfiles := by
  constructor
  · intro h
    rcases List.any_eq_true.mp h with ⟨x, hx, hbeq⟩
    exact (eq_of_beq hbeq) ▸ hx
  · intro h
    exact List.any_eq_true.mpr ⟨p, h, beq_self_eq_true p⟩

theorem profileLines_emit (p : String) :
    profileLines (EmitProfileError p) = ValidProfiles := by
  obtain ⟨pd⟩ := p
  rfl

/-- On a legacy (XML) package, no run of the build body executes any of
the format-dependent steps, and once the dispatch point is reached the
legacy warning is logged. -/
theorem BuildWith_xml (p : Package) (img : BackingImage)
    (w : Source → SourceState) (bres : Option String)
    (hty : p.«Type» = PackageTypeXML) (env : BuildEnv) :
    (BuildWith p img w bres env).2.filter claimedStep = [] ∧
    (commonStepsOk env →
      Event.warnLegacy ∈ (BuildWith p img w bres env).2) := by
  obtain ⟨pn, pv, pr, pp, ty, ps⟩ := p
  cases ty
  case PackageTypeYpkg => exact PackageType.noConfusion hty
  obtain ⟨c, ar, ca, pi, sd, ug, ic, idep, stp, ch, dn, cn, rb⟩ := env
  cases c
  · exact ⟨rfl, fun h => Bool.noConfusion h.1⟩
  cases ar
  · exact ⟨rfl, fun h => Bool.noConfusion h.2.1⟩
  cases ca
  · exact ⟨rfl, fun h => Bool.noConfusion h.2.2.1⟩
  cases pi
  · exact ⟨rfl, fun h => Bool.noConfusion h.2.2.2.1⟩
  cases sd
  · exact ⟨rfl, fun h => Bool.noConfusion h.2.2.2.2.1⟩
  cases ug
  · exact ⟨rfl, fun h => Bool.noConfusion h.2.2.2.2.2.1⟩
  cases ic
  · exact ⟨rfl, fun h => Bool.noConfusion h.2.2.2.2.2.2⟩
  cases stp
  · exact ⟨rfl, fun _ => of_decide_eq_true rfl⟩
  · exact ⟨rfl, fun _ => of_decide_eq_true rfl⟩

/-- On a modern (ypkg) package, the format-dependent steps a run of the
build body executes are an initial segment of the order the spec states,
and the legacy warning is never logged. -/
theorem BuildWith_ypkg (p : Package) (img : BackingImage)
    (w : Source → SourceState) (bres : Option String)
    (hty : p.«Type» = PackageTypeYpkg) (env : BuildEnv) :
    (∃ t, claimedOrder
        = (BuildWith p img w bres env).2.filter claimedStep ++ t) ∧
    Event.warnLegacy ∉ (BuildWith p img w bres env).2 := by
  obtain ⟨pn, pv, pr, pp, ty, ps⟩ := p
  cases ty
  case PackageTypeXML => exact PackageType.noConfusion hty
  obtain ⟨c, ar, ca, pi, sd, ug, ic, idep, stp, ch, dn, cn, rb⟩ := env
  cases c
  · exact ⟨⟨claimedOrder, rfl⟩, of_decide_eq_true rfl⟩
  cases ar
  · exact ⟨⟨claimedOrder, rfl⟩, of_decide_eq_true rfl⟩
  cases ca
  · exact ⟨⟨claimedOrder, rfl⟩, of_decide_eq_true rfl⟩
  cases pi
  · exact ⟨⟨claimedOrder, rfl⟩, of_decide_eq_true rfl⟩
  cases sd
  · exact ⟨⟨claimedOrder, rfl⟩, of_decide_eq_true rfl⟩
  cases ug
  · exact ⟨⟨claimedOrder, rfl⟩, of_decide_eq_true rfl⟩
  cases ic
  · exact ⟨⟨claimedOrder, rfl⟩, of_decide_eq_true rfl⟩
  cases idep
  · exact ⟨⟨[Event.chownHome, Event.dropNetworking,
      Event.configureNetworking, Event.bindSources, Event.runBuild],
      rfl⟩, of_decide_eq_true rfl⟩
  cases stp
  · exact ⟨⟨[Event.chownHome, Event.dropNetworking,
      Event.configureNetworking, Event.bindSources, Event.runBuild],
      rfl⟩, of_decide_eq_true rfl⟩
  cases ch
  · exact ⟨⟨[Event.dropNetworking, Event.configureNetworking,
      Event.bindSources, Event.runBuild], rfl⟩, of_decide_eq_true rfl⟩
  cases dn
  · exact ⟨⟨[Event.configureNetworking, Event.bindSources,
      Event.runBuild], rfl⟩, of_decide_eq_true rfl⟩
  cases cn
  · exact ⟨⟨[Event.bindSources, Event.runBuild], rfl⟩, of_decide_eq_true rfl⟩
  cases bres with
  | some e => exact ⟨⟨[Event.runBuild], rfl⟩, of_decide_eq_true rfl⟩
  | none =>
    cases rb
    · exact ⟨⟨[], rfl⟩, of_decide_eq_true rfl⟩
    · exact ⟨⟨[], rfl⟩, of_decide_eq_true rfl⟩

/-- On a modern package whose steps all succeed and whose source binding
returns nil, the format-dependent steps execute in exactly the stated
order. -/
theorem BuildWith_ypkg_allOk (p : Package) (img : BackingImage)
    (w : Source → SourceState) (hty : p.«Type» = PackageTypeYpkg) :
    (BuildWith p img w none allOkEnv).2.filter claimedStep
      = claimedOrder := by
  obtain ⟨pn, pv, pr, pp, ty, ps⟩ := p
  cases ty
  case PackageTypeXML => exact PackageType.noConfusion hty
  rfl

/-! ## The claims -/

/-- Claim C1 (amended).  In `Package.Build` the reaper is registered
right after the overlay object is created and stale state purged, and
before every privileged step; on every exit path reached after that
registration the reaper runs exactly once (the interrupt hook invokes the
same reaper on a signal); the single exit path before registration — a
`CleanExisting` failure — returns without running the reaper. -/
theorem claim_C1 (p : Package) (img : BackingImage)
    (w : Source → SourceState) (wb : Source → BindState) (d : Bool)
    (env : BuildEnv) :
    (env.cleanExisting = true →
      (∃ rest, (Build p img w wb d env).2 = preludeTrace ++ rest) ∧
      (Build p img w wb d env).2.count Event.runReaper = 1) ∧
    (env.cleanExisting = false →
      (Build p img w wb d env).2.count Event.runReaper = 0 ∧
      Event.registerReaper ∉ (Build p img w wb d env).2) ∧
    preludeTrace.filter privilegedStep = [] ∧
    preludeTrace[3]? = some Event.registerReaper ∧
    (∀ q r, (Build p img w wb d env).2 = q ++ r →
      Event.registerReaper ∈ q → Event.runReaper ∉ q →
      (interruptHook q).count Event.runReaper = 1) := by
  have hbr : Build p img w wb d env
      = BuildWith p img w ((BindSources p (NewOverlay img p) wb d).1) env :=
    rfl
  refine ⟨?_, ?_, by decide, by decide, ?_⟩
  · intro hc
    obtain ⟨mid, e, heq, hnr, -⟩ :=
      BuildWith_shape p img w ((BindSources p (NewOverlay img p) wb d).1)
        env hc
    have heq2 : (Build p img w wb d env).2
        = preludeTrace ++ mid ++ [Event.runReaper] := by rw [hbr, heq]
    constructor
    · exact ⟨mid ++ [Event.runReaper], by rw [heq2, List.append_assoc]⟩
    · rw [heq2]
      simp only [List.count_append]
      rw [List.count_eq_zero.mpr hnr]
      rfl
  · intro hc
    rw [hbr]
    obtain ⟨c, ar, ca, pi, sd, ug, ic, idep, stp, ch, dn, cn, rb⟩ := env
    cases c
    · exact ⟨rfl, of_decide_eq_true rfl⟩
    · exact Bool.noConfusion hc
  · intro q r heq hm hnm
    simp [interruptHook, List.count_append, List.count_eq_zero.mpr hnm]

/-- Claim C1, witness: a concrete full build run registers the reaper and
runs it exactly once. -/
theorem claim_C1_witness :
    allOkEnv.cleanExisting = true ∧
    (Build sampleYpkg sampleImg missW allBindW true allOkEnv).2.count
      Event.runReaper = 1 :=
  ⟨rfl, ((claim_C1 sampleYpkg sampleImg missW allBindW true allOkEnv).1
    rfl).2⟩

/-- Claim C1, counterexample to the claim as stated: when `CleanExisting`
fails, that early error return exits the build function without the
reaper ever running, so the reaper does not run exactly once on every
exit path. -/
theorem claim_C1_counterexample :
    ¬ ((Build sampleYpkg sampleImg missW allBindW true
        cleanFailEnv).2.count Event.runReaper = 1) := by
  decide

/-- Claim C2 (amended).  For every profile string outside the known set,
validation returns false, the emission path prints exactly the known set
and the default profile, and both command handlers return without
attempting any filesystem mutation — but they exit zero (`buildPackage`
returns nil and `updateProfile` returns without calling `os.Exit`), not
non-zero. -/
theorem claim_C2 (profile : String) (benv : BuildCmdEnv)
    (uenv : UpdateCmdEnv) (h : profile ∉ ValidProfiles)
    (hargs : uenv.args = []) :
    IsValidProfile profile = false ∧
    profileLines (EmitProfileError profile) = ValidProfiles ∧
    ("\nThe default profile is: " ++ DefaultProfile ++ "\n")
      ∈ EmitProfileError profile ∧
    buildPackageCmd profile benv
      = { stderr := EmitProfileError profile, retErr := none,
          mutations := [], warnedLegacy := false } ∧
    updateProfileCmd profile uenv
      = { stderr := EmitProfileError profile, exitCode := none,
          mutations := [] } := by
  have hv : IsValidProfile profile = false := by
    rcases Bool.eq_false_or_eq_true (IsValidProfile profile) with ht | hf
    · exact absurd ((isValidProfile_iff profile).mp ht) h
    · exact hf
  refine ⟨hv, profileLines_emit profile, ?_, ?_, ?_⟩
  · simp [EmitProfileError]
  · simp [buildPackageCmd, hv]
  · simp [updateProfileCmd, hargs, hv]

/-- Claim C2, witness: the amended behavior at the concrete unknown
profile string bogus. -/
theorem claim_C2_witness :
    ("bogus" : String) ∉ ValidProfiles ∧
    sampleUpdateCmdEnv.args = [] ∧
    buildPackageCmd "bogus" sampleBuildCmdEnv
      = { stderr := EmitProfileError "bogus", retErr := none,
          mutations := [], warnedLegacy := false } :=
  ⟨by decide, rfl,
    (claim_C2 "bogus" sampleBuildCmdEnv sampleUpdateCmdEnv (by decide)
      rfl).2.2.2.1⟩

/-- Claim C2, counterexample to the claim as stated: at the unknown
profile bogus, neither handler exits non-zero — the build handler
returns nil and the update handler returns without an `os.Exit` call. -/
theorem claim_C2_counterexample :
    ¬ ((buildPackageCmd "bogus" sampleBuildCmdEnv).retErr ≠ none ∨
       (updateProfileCmd "bogus" sampleUpdateCmdEnv).exitCode ≠ none) := by
  decide

/-- Claim C3.  FetchSources always returns nil; the loop processes every
source independently of earlier failures (its events are the
concatenation of per-source events); and a source whose fetch fails
contributes a logged download failure after which the loop moves on. -/
theorem claim_C3 (p : Package) (w : Source → SourceState) :
    (FetchSources p w).1 = none ∧
    (FetchSources p w).2 = p.Sources.flatMap (fetchOne p.«Type» w) ∧
    (∀ s rest,
      Source.IsFetched (w s) (fetchSourcesExpHash p.«Type» s) = false →
      (w s).fetchOk = false →
      fetchLoop p.«Type» w (s :: rest)
        = FetchEvent.downloading s.URI :: FetchEvent.fetchFailed s.URI ::
          fetchLoop p.«Type» w rest) := by
  refine ⟨rfl, fetchLoop_eq_flatMap p.«Type» w p.Sources, ?_⟩
  intro s rest hf ho
  simp [fetchLoop, hf, ho]

/-- Claim C3, witness: a concrete unfetched source with a failing network
is logged and the loop continues. -/
theorem claim_C3_witness :
    Source.IsFetched (missW sampleSource)
      (fetchSourcesExpHash PackageTypeYpkg sampleSource) = false ∧
    (missW sampleSource).fetchOk = false ∧
    fetchLoop PackageTypeYpkg missW (sampleSource :: [])
      = FetchEvent.downloading sampleSource.URI ::
        FetchEvent.fetchFailed sampleSource.URI ::
        fetchLoop PackageTypeYpkg missW [] :=
  ⟨by decide, by decide,
    (claim_C3 sampleYpkg missW).2.2 sampleSource [] (by decide)
      (by decide)⟩

/-- Claim C4.  The checksum used to validate and locate a cached source
is a function of the package format alone — legacy XML selects the SHA-1
field, modern ypkg the SHA-256 field — and `FetchSources` and
`BindSources` make the identical selection. -/
theorem claim_C4 (t : PackageType) (s : Source) :
    fetchSourcesExpHash t s = selectHash (specHashKind t) s ∧
    bindSourcesExpHash t s = selectHash (specHashKind t) s ∧
    fetchSourcesExpHash t s = bindSourcesExpHash t s ∧
    fetchSourcesExpHash PackageTypeXML s = s.SHA1Sum ∧
    fetchSourcesExpHash PackageTypeYpkg s = s.SHA256Sum := by
  cases t <;>
    simp [fetchSourcesExpHash, bindSourcesExpHash, selectHash, specHashKind]

/-- Claim C5.  Legacy packages skip all format-dependent steps and log
the legacy warning once the dispatch is reached; modern packages execute
those steps in exactly the stated order (an initial segment of it when a
step fails). -/
theorem claim_C5 (p : Package) (img : BackingImage)
    (w : Source → SourceState) (wb : Source → BindState) (d : Bool)
    (env : BuildEnv) :
    (p.«Type» = PackageTypeXML →
      (Build p img w wb d env).2.filter claimedStep = [] ∧
      (commonStepsOk env →
        Event.warnLegacy ∈ (Build p img w wb d env).2)) ∧
    (p.«Type» = PackageTypeYpkg →
      (∃ t, claimedOrder
          = (Build p img w wb d env).2.filter claimedStep ++ t) ∧
      Event.warnLegacy ∉ (Build p img w wb d env).2 ∧
      (env = allOkEnv →
        (BindSources p (NewOverlay img p) wb d).1 = none →
        (Build p img w wb d env).2.filter claimedStep = claimedOrder)) := by
  constructor
  · intro hty
    exact BuildWith_xml p img w _ hty env
  · intro hty
    obtain ⟨h1, h2⟩ := BuildWith_ypkg p img w
      ((BindSources p (NewOverlay img p) wb d).1) hty env
    refine ⟨h1, h2, ?_⟩
    rintro rfl hb
    show (BuildWith p img w ((BindSources p (NewOverlay img p) wb d).1)
      allOkEnv).2.filter claimedStep = claimedOrder
    rw [hb]
    exact BuildWith_ypkg_allOk p img w hty

/-- Claim C5, witness: a fully successful modern build runs exactly the
stated step sequence. -/
theorem claim_C5_witness :
    sampleYpkg.«Type» = PackageTypeYpkg ∧
    (BindSources sampleYpkg (NewOverlay sampleImg sampleYpkg) allBindW
      true).1 = none ∧
    (Build sampleYpkg sampleImg missW allBindW true allOkEnv).2.filter
      claimedStep = claimedOrder :=
  ⟨rfl, by decide,
    ((claim_C5 sampleYpkg sampleImg missW allBindW true allOkEnv).2
      rfl).2.2 rfl (by decide)⟩

/-- Claim C6.  The sandbox work and source directories depend only on the
package format and the overlay mount point; the legacy format uses the
fixed paths /WORK and /var/cache/eopkg/archives, the modern format uses
subdirectories of the build user home; the external paths are the
internal paths joined under the mount point. -/
theorem claim_C6 (p q : Package) (o o' : Overlay) :
    (p.«Type» = q.«Type» → o.MountPoint = o'.MountPoint →
      GetWorkDirInternal p = GetWorkDirInternal q ∧
      GetSourceDirInternal p = GetSourceDirInternal q ∧
      GetWorkDir p o = GetWorkDir q o' ∧
      GetSourceDir p o = GetSourceDir q o') ∧
    (p.«Type» = PackageTypeXML →
      GetWorkDirInternal p = "/WORK" ∧
      GetSourceDirInternal p = "/var/cache/eopkg/archives" ∧
      GetWorkDir p o = filepathJoin o.MountPoint "WORK" ∧
      GetSourceDir p o
        = filepathJoin o.MountPoint "var/cache/eopkg/archives") ∧
    (p.«Type» = PackageTypeYpkg →
      (∃ sub, GetWorkDirInternal p = BuildUserHome ++ "/" ++ sub) ∧
      (∃ sub, GetSourceDirInternal p = BuildUserHome ++ "/" ++ sub) ∧
      GetWorkDir p o = filepathJoin o.MountPoint "home/build/work" ∧
      GetSourceDir p o
        = filepathJoin o.MountPoint "home/build/YPKG/sources") := by
  refine ⟨?_, ?_, ?_⟩
  · intro hty hmp
    refine ⟨?_, ?_, ?_, ?_⟩ <;>
      simp [GetWorkDirInternal, GetSourceDirInternal, GetWorkDir,
        GetSourceDir, hty, hmp]
  · intro hty
    refine ⟨?_, ?_, ?_, ?_⟩ <;>
      simp [GetWorkDirInternal, GetSourceDirInternal, GetWorkDir,
        GetSourceDir, hty] <;> rfl
  · intro hty
    refine ⟨⟨"work", ?_⟩, ⟨"YPKG/sources", ?_⟩, ?_, ?_⟩ <;>
      simp [GetWorkDirInternal, GetSourceDirInternal, GetWorkDir,
        GetSourceDir, hty] <;> rfl

/-- Claim C6, witness: the directory conventions evaluated on concrete
legacy and modern packages. -/
theorem claim_C6_witness :
    sampleXMLPkg.«Type» = PackageTypeXML ∧
    GetWorkDirInternal sampleXMLPkg = "/WORK" ∧
    GetWorkDir sampleXMLPkg ⟨"/mnt"⟩ = filepathJoin "/mnt" "WORK" ∧
    GetSourceDir sampleYpkg ⟨"/mnt"⟩
      = filepathJoin "/mnt" "home/build/YPKG/sources" :=
  ⟨rfl,
    ((claim_C6 sampleXMLPkg sampleXMLPkg ⟨"/mnt"⟩ ⟨"/mnt"⟩).2.1 rfl).1,
    ((claim_C6 sampleXMLPkg sampleXMLPkg ⟨"/mnt"⟩ ⟨"/mnt"⟩).2.1 rfl).2.2.1,
    ((claim_C6 sampleYpkg sampleYpkg ⟨"/mnt"⟩ ⟨"/mnt"⟩).2.2 rfl).2.2.2⟩

/-- Claim C7.  A source whose cached file hash equals the expected hash
for the package format is skipped by the fetch loop (no download), even
though the loop never consults the cache file age; a source is downloaded
only on a cache miss or hash mismatch. -/
theorem claim_C7 (p : Package) (w : Source → SourceState) (s : Source)
    (rest : List Source) :
    (Source.IsFetched (w s) (fetchSourcesExpHash p.«Type» s) = true ↔
      (w s).cachedHash = some (fetchSourcesExpHash p.«Type» s)) ∧
    ((w s).cachedHash = some (fetchSourcesExpHash p.«Type» s) →
      fetchLoop p.«Type» w (s :: rest) = fetchLoop p.«Type» w rest) ∧
    (∀ w' : Source → SourceState,
      (∀ x, (w' x).cachedHash = (w x).cachedHash ∧
        (w' x).fetchOk = (w x).fetchOk) →
      fetchLoop p.«Type» w' (s :: rest) = fetchLoop p.«Type» w (s :: rest)) ∧
    (Source.IsFetched (w s) (fetchSourcesExpHash p.«Type» s) = false →
      ∃ tl, fetchLoop p.«Type» w (s :: rest)
        = FetchEvent.downloading s.URI :: tl) := by
  refine ⟨?_, ?_, ?_, ?_⟩
  · cases hch : (w s).cachedHash with
    | none => simp [Source.IsFetched, hch]
    | some hsh => simp [Source.IsFetched, hch]
  · intro hch
    have hf : Source.IsFetched (w s) (fetchSourcesExpHash p.«Type» s)
        = true := by simp [Source.IsFetched, hch]
    simp [fetchLoop, hf]
  · intro w' hw
    exact fetchLoop_congr p.«Type» hw (s :: rest)
  · intro hf
    simp only [fetchLoop, hf]
    exact ⟨_, rfl⟩

/-- Claim C7, witness: a concrete correctly-cached source is skipped by
the fetch loop. -/
theorem claim_C7_witness :
    (hitW sampleSource).cachedHash
      = some (fetchSourcesExpHash PackageTypeYpkg sampleSource) ∧
    fetchLoop PackageTypeYpkg hitW (sampleSource :: [])
      = fetchLoop PackageTypeYpkg hitW [] :=
  ⟨by decide,
    (claim_C7 sampleYpkg hitW sampleSource []).2.1 (by decide)⟩

/-- Claim C8 (amended).  BackingImage construction is a pure function of
the profile name — equal names give identical records — and for names
that are clean single path components (non-empty, separator-free, not a
dot segment; both published profile names are of this shape) distinct
names never produce the same installed path, archive path, origin URI, or
root directory.  For names outside that shape, `filepath.Join`'s Clean
step can alias distinct names. -/
theorem claim_C8 (n₁ n₂ : String) :
    (n₁ = n₂ → NewBackingImage n₁ = NewBackingImage n₂) ∧
    (simpleName n₁ = true → simpleName n₂ = true → n₁ ≠ n₂ →
      (NewBackingImage n₁).ImagePath ≠ (NewBackingImage n₂).ImagePath ∧
      (NewBackingImage n₁).ImagePathXZ
        ≠ (NewBackingImage n₂).ImagePathXZ ∧
      (NewBackingImage n₁).ImageURI ≠ (NewBackingImage n₂).ImageURI ∧
      (NewBackingImage n₁).RootDir ≠ (NewBackingImage n₂).RootDir) := by
  constructor
  · intro h; rw [h]
  · intro hs₁ hs₂ hne
    obtain ⟨hns₁, hd0₁, hd1₁, hd2₁⟩ := simpleName_spec n₁ hs₁
    obtain ⟨hns₂, hd0₂, hd1₂, hd2₂⟩ := simpleName_spec n₂ hs₂
    refine ⟨?_, ?_, ?_, ?_⟩
    · intro h
      obtain ⟨ha1, ha2, ha3, ha4⟩ :=
        suffix_component n₁ ImageSuffix hns₁ (by decide) (by decide)
      obtain ⟨hb1, hb2, hb3, hb4⟩ :=
        suffix_component n₂ ImageSuffix hns₂ (by decide) (by decide)
      rw [show (NewBackingImage n₁).ImagePath
            = filepathJoin ImagesDir (n₁ ++ ImageSuffix) from rfl,
          show (NewBackingImage n₂).ImagePath
            = filepathJoin ImagesDir (n₂ ++ ImageSuffix) from rfl,
          filepathJoin_images _ ha1 ha2 ha3 ha4,
          filepathJoin_images _ hb1 hb2 hb3 hb4] at h
      exact hne (str_append_right_cancel (str_append_left_cancel h))
    · intro h
      obtain ⟨ha1, ha2, ha3, ha4⟩ :=
        suffix_component n₁ ImageCompressedSuffix hns₁ (by decide)
          (by decide)
      obtain ⟨hb1, hb2, hb3, hb4⟩ :=
        suffix_component n₂ ImageCompressedSuffix hns₂ (by decide)
          (by decide)
      rw [show (NewBackingImage n₁).ImagePathXZ
            = filepathJoin ImagesDir (n₁ ++ ImageCompressedSuffix)
            from rfl,
          show (NewBackingImage n₂).ImagePathXZ
            = filepathJoin ImagesDir (n₂ ++ ImageCompressedSuffix)
            from rfl,
          filepathJoin_images _ ha1 ha2 ha3 ha4,
          filepathJoin_images _ hb1 hb2 hb3 hb4] at h
      exact hne (str_append_right_cancel (str_append_left_cancel h))
    · intro h
      exact hne (str_wrap_inj h)
    · intro h
      rw [show (NewBackingImage n₁).RootDir
            = filepathJoin ImageRootsDir n₁ from rfl,
          show (NewBackingImage n₂).RootDir
            = filepathJoin ImageRootsDir n₂ from rfl,
          filepathJoin_roots n₁ hd0₁ hns₁ hd1₁ hd2₁,
          filepathJoin_roots n₂ hd0₂ hns₂ hd1₂ hd2₂] at h
      exact hne (str_append_left_cancel h)

/-- Claim C8, witness: the two known profile names are clean components
and yield distinct image paths. -/
theorem claim_C8_witness :
    simpleName "main-x86_64" = true ∧
    simpleName "unstable-x86_64" = true ∧
    ("main-x86_64" : String) ≠ "unstable-x86_64" ∧
    (NewBackingImage "main-x86_64").ImagePath
      ≠ (NewBackingImage "unstable-x86_64").ImagePath :=
  ⟨by decide, by decide, by decide,
    ((claim_C8 "main-x86_64" "unstable-x86_64").2 (by decide) (by decide)
      (by decide)).1⟩

/-- Claim C8, counterexample to the claim as stated: the distinct names
`a/../b` and `b` share an installed-image path, because `filepath.Join`
Cleans `a/..` away — so distinct names can collide. -/
theorem claim_C8_counterexample :
    ("a/../b" : String) ≠ "b" ∧
    (NewBackingImage "a/../b").ImagePath
      = (NewBackingImage "b").ImagePath := by
  decide

/-- Claim C9.  `Package.Build` never returns a success result: every run
returns a non-nil error, and a run in which every step succeeds returns
exactly the "Not yet implemented" error (artifact collection is
unimplemented). -/
theorem claim_C9 (p : Package) (img : BackingImage)
    (w : Source → SourceState) (wb : Source → BindState) (d : Bool)
    (env : BuildEnv) :
    (Build p img w wb d env).1.isSome = true ∧
    (env = allOkEnv → (BindSources p (NewOverlay img p) wb d).1 = none →
      (Build p img w wb d env).1 = some "Not yet implemented") := by
  constructor
  · by_cases hc : env.cleanExisting = true
    · obtain ⟨mid, e, heq, -, -⟩ := BuildWith_shape p img w
        ((BindSources p (NewOverlay img p) wb d).1) env hc
      show (BuildWith p img w ((BindSources p (NewOverlay img p) wb d).1)
        env).1.isSome = true
      rw [heq]
      rfl
    · simp only [Bool.not_eq_true] at hc
      obtain ⟨c, ar, ca, pi, sd, ug, ic, idep, stp, ch, dn, cn, rb⟩ := env
      cases c
      · rfl
      · exact Bool.noConfusion hc
  · rintro rfl hb
    show (BuildWith p img w ((BindSources p (NewOverlay img p) wb d).1)
      allOkEnv).1 = some "Not yet implemented"
    rw [hb]
    obtain ⟨pn, pv, pr, pp, ty, ps⟩ := p
    cases ty
    · rfl
    · rfl

/-- Claim C9, witness: a fully successful concrete build still returns
the "Not yet implemented" error. -/
theorem claim_C9_witness :
    (BindSources sampleYpkg (NewOverlay sampleImg sampleYpkg) allBindW
      true).1 = none ∧
    (Build sampleYpkg sampleImg missW allBindW true allOkEnv).1
      = some "Not yet implemented" :=
  ⟨by decide,
    (claim_C9 sampleYpkg sampleImg missW allBindW true allOkEnv).2 rfl
      (by decide)⟩

/-- Claim C10.  In BindSources, a failure to create the bind-mount target
file makes the function return nil immediately: the error is only
logged, that source is never bind mounted, and the remaining sources are
silently skipped. -/
theorem claim_C10 (p : Package) (o : Overlay) (w : Source → BindState)
    (s : Source) (rest : List Source) (dirExists : Bool)
    (hdir : dirExists = true ∨ (w s).mkdirOk = true)
    (ht : (w s).touchOk = false) :
    bindLoop p o w dirExists (s :: rest)
      = (none,
         [BindEvent.touchFail (filepathJoin (GetSourceDir p o) s.File)]) := by
  rcases hdir with h | h <;> simp [bindLoop, h, ht]

/-- Claim C10, witness: a concrete touch failure on the first of two
sources returns nil with only the failure log. -/
theorem claim_C10_witness :
    (touchFailW sampleSource).touchOk = false ∧
    bindLoop sampleYpkg ⟨"/mnt"⟩ touchFailW true (sampleSource :: [])
      = (none,
         [BindEvent.touchFail
           (filepathJoin (GetSourceDir sampleYpkg ⟨"/mnt"⟩)
             sampleSource.File)]) :=
  ⟨rfl,
    claim_C10 sampleYpkg ⟨"/mnt"⟩ touchFailW sampleSource [] true
      (Or.inl rfl) rfl⟩

end Solbuild
